import Mathlib

/-
Verification of the mtbi_meeg EEG classification pipeline.

Shallow embedding of the cross-validation / ROC-aggregation code:
  - python/analysis/readdata.py            (data loader)
  - python/analysis/ROC_AUC.py             (Kfold_CV_solver, ROC_results, LOOCV_solver)
  - python/analysis/refactored_cv_and_plotting.py (module-level fold loop and report)
  - src/analysis/03_fit_classifier_and_plot.py    (perform_data_split, roc_per_clf,
    initialize_cv, fit_and_plot, initialize_argparser)

Real numbers of the source (numpy floats) are embedded as rationals.
Calls into scikit-learn and numpy that are not part of the repository
(classifier fitting, roc_curve, np.interp, np.mean, splitter internals) are
either embedded following their documented behaviour or abstracted as
function parameters, as noted on each definition.
-/

namespace MtbiMeeg

/-- Numeric grid or curve values of the pipeline are rationals; a ROC curve is
the list of (false positive rate, true positive rate) pairs in threshold order,
as produced by sklearn roc_curve / RocCurveDisplay. -/
abbrev Curve := List (ℚ × ℚ)

/-- Trapezoidal integration over a list of (x, y) points; embeds
sklearn.metrics.auc (np.trapz): the sum of (x2 - x1) * (y1 + y2) / 2 over
consecutive points. -/
def trapezoid : Curve → ℚ
  | [] => 0
  | [_] => 0
  | (x1, y1) :: (x2, y2) :: rest => (x2 - x1) * (y1 + y2) / 2 + trapezoid ((x2, y2) :: rest)

/-- One query of piecewise-linear interpolation; embeds np.interp on an
increasing knot sequence: clamp to the first and last y value outside the knot
range, linear interpolation on the segment containing x otherwise. -/
def interpPoint (x : ℚ) : Curve → ℚ
  | [] => 0
  | [(_, y1)] => y1
  | (x1, y1) :: (x2, y2) :: rest =>
    if x ≤ x1 then y1
    else if x ≤ x2 then y1 + (y2 - y1) * (x - x1) / (x2 - x1)
    else interpPoint x ((x2, y2) :: rest)

/-- Interpolation of a whole grid; embeds np.interp(grid, fpr, tpr) with the
curve given as (fpr, tpr) pairs. -/
def npInterp (grid : List ℚ) (c : Curve) : List ℚ := grid.map fun x => interpPoint x c

/-- Embeds np.linspace(0, 1, 100): the grid of the 100 points k / 99. -/
def linspace100 : List ℚ := (List.range 100).map fun k => (k : ℚ) / 99

/-- Embeds the in-place update interp_tpr[0] = 0.0 of ROC_AUC.py line 70,
refactored_cv_and_plotting.py line 137 and tprs[-1][0] = 0.0 of
03_fit_classifier_and_plot.py line 308. -/
def setFirst0 : List ℚ → List ℚ
  | [] => []
  | _ :: t => 0 :: t

/-- Embeds the in-place update mean_tpr[-1] = 1.0 of ROC_AUC.py line 104,
refactored_cv_and_plotting.py line 160 and 03_fit_classifier_and_plot.py
line 183. -/
def setLast1 : List ℚ → List ℚ
  | [] => []
  | [_] => [1]
  | x :: y :: t => x :: setLast1 (y :: t)

/-- Arithmetic mean of a list of rationals; embeds statistics.mean and np.mean
on a one-dimensional array. -/
def listMean (l : List ℚ) : ℚ := l.sum / l.length

/-- Pointwise column mean of a rectangular list of rows; embeds
np.mean(tprs, axis=0): entry j is the mean over all rows of entry j. -/
def pointwiseMean (ls : List (List ℚ)) : List ℚ :=
  match ls with
  | [] => []
  | l0 :: _ => (List.range l0.length).map fun j => listMean (ls.map fun l => l.getD j 0)

/-- Number of distinct values of a list; embeds np.unique(a).size. -/
def uniqueCount (l : List Nat) : Nat := l.dedup.length

/- Data loader: readdata.py. -/

/-- Embeds str.rstrip() of readdata.py line 76: trailing whitespace removed. -/
def rstripChars (s : List Char) : List Char := (s.reverse.dropWhile Char.isWhitespace).reverse

/-- Embeds the list comprehension of readdata.py line 39:
subjects_and_tasks = [(x, y) for x in subjects for y in chosen_tasks]. -/
def subjects_and_tasks (subjects tasks : List (List Char)) : List (List Char × List Char) :=
  subjects.flatMap fun x => tasks.map fun y => (x, y)

/-- Embeds the index construction of readdata.py lines 134-137:
i[0].rstrip() + the underscore character + i[1]. -/
def mkIndex (p : List Char × List Char) : List Char := rstripChars p.1 ++ '_' :: p.2

/-- Embeds the group labelling of readdata.py lines 144-150: label 1 when the
character at position 2 of the row index is P, label 0 when it is C, and the
problem sentinel 2 otherwise. -/
def groupOfIndex (s : List Char) : Nat :=
  if s.getD 2 ' ' = 'P' then 1 else if s.getD 2 ' ' = 'C' then 0 else 2

/-- Embeds the loop of readdata.py lines 143-150 building the Group column,
one label per dataframe row index. -/
def groupsOf (indices : List (List Char)) : List Nat := indices.map groupOfIndex

/-- Column j sum of a row-major matrix; embeds
np.sum(sub_bands_array, axis=0) of readdata.py line 93 (rows are frequency
bands, columns are channels). -/
def colSum (m : List (List ℚ)) (j : Nat) : ℚ := (m.map fun r => r.getD j 0).sum

/-- Embeds the per-channel normalization of readdata.py line 94:
sub_bands_array / ch_tot_powers[None, :], dividing every entry by the total
power of its channel column. -/
def channelScaling (m : List (List ℚ)) : List (List ℚ) :=
  m.map fun r => r.enum.map fun p => p.2 / colSum m p.1

/- Fold slicing of 03_fit_classifier_and_plot.py initialize_cv and the
startup validation of initialize_argparser. -/

/-- Helper for the extended Python slice: when the countdown is 0 the head is
taken and the countdown restarts at step - 1, otherwise the head is skipped. -/
def everyNthAux {α : Type} (step : Nat) : Nat → List α → List α
  | _, [] => []
  | 0, x :: rest => x :: everyNthAux step (step - 1) rest
  | c + 1, _ :: rest => everyNthAux step c rest

/-- Embeds the Python slice xs[start : len(xs) : step] for step at least 1:
the elements at positions start, start + step, start + 2 * step, and so on. -/
def pySliceStep {α : Type} (start step : Nat) (xs : List α) : List α :=
  everyNthAux step 0 (xs.drop start)

/-- Embeds the row slicing of 03_fit_classifier_and_plot.py lines 232-234:
X[which_segment : len(X) : segments] applied when one_segment_per_task is
enabled. -/
def initialize_cv_slice {α : Type} (whichSegment segments : Nat) (rows : List α) : List α :=
  pySliceStep whichSegment segments rows

/-- Embeds the startup validation of initialize_argparser lines 106-107: the
run is rejected (TypeError) exactly when one_segment_per_task is set and
which_segment exceeds the number of segments. -/
def which_segment_accepted (oneSegmentPerTask : Bool) (whichSegment segments : Nat) : Bool :=
  !(oneSegmentPerTask && decide (whichSegment > segments))

/- Fold splitter configuration at the three call sites. -/

/-- Configuration of a scikit-learn k-fold splitter as constructed at the
three call sites: number of splits, the shuffle flag, and the optional fixed
random_state. -/
structure CVConfig where
  nSplits : Nat
  shuffle : Bool
  randomState : Option Nat
deriving DecidableEq

/-- Modelled from the spec: the internals of sklearn StratifiedGroupKFold and
StratifiedKFold are not part of this repository. The spec states that folds
are generated from a random seed and shuffling; the splitter is modelled as a
deterministic function of the row count, the effective seed and the fold
count, in which the seed genuinely changes the shuffled assignment (a seed
rotation), and each row is assigned to exactly one test fold. -/
def modelShuffledSplit (n seed folds : Nat) : List (List Nat × List Nat) :=
  (List.range folds).map fun k =>
    ((List.range n).filter fun r => ((r + seed) % n) % folds != k,
     (List.range n).filter fun r => ((r + seed) % n) % folds == k)

/-- Run of a configured splitter: when shuffle is on, the effective seed is
the configured random_state when fixed, and otherwise the ambient global
random-number-generator state of the interpreter process. -/
def runSplitter (cfg : CVConfig) (ambientSeed n : Nat) : List (List Nat × List Nat) :=
  modelShuffledSplit n (if cfg.shuffle then cfg.randomState.getD ambientSeed else 0) cfg.nSplits

/-- Splitter construction of ROC_AUC.py line 31:
StratifiedGroupKFold(n_splits=folds, shuffle=True, random_state=20) with
folds=10 at the call site. -/
def rocAucSplitterConfig : CVConfig := ⟨10, true, some 20⟩

/-- Splitter construction of refactored_cv_and_plotting.py line 95:
StratifiedGroupKFold(n_splits=folds, shuffle=True) with folds=5 and no
random_state (line 91 likewise passes no random_state). -/
def refactoredSplitterConfig : CVConfig := ⟨5, true, none⟩

/-- Splitter construction of 03_fit_classifier_and_plot.py lines 237 and 241:
shuffle=True with random_state=seed from the configuration. -/
def script03SplitterConfig (seed folds : Nat) : CVConfig := ⟨folds, true, some seed⟩

/- Classifier dispatch of ROC_AUC.py. -/

/-- Embeds the classifier dispatch of ROC_AUC.py lines 43-53 and 173-183: the
recognized identifiers are LDA, SVM, LR and RF; anything else reaches the
raise statement. -/
def solverKnown (solver : String) : Bool :=
  solver == "LDA" || solver == "SVM" || solver == "LR" || solver == "RF"

/-- Observable control events of one cross-validation run: building the
train/test slices of a fold, fitting a model on a fold, and raising the fatal
error of the unknown-classifier branch (the raise of a plain string, itself a
TypeError at runtime, which terminates the run either way). -/
inductive CvEvent where
  | sliceBuilt : Nat → CvEvent
  | modelFit : Nat → CvEvent
  | errorRaised : CvEvent
deriving DecidableEq

/-- Event trace of the fold loop of Kfold_CV_solver (ROC_AUC.py lines 38-72):
each iteration first builds X_train, X_test, y_train, y_test from the fold
indices (lines 40-41) and only then dispatches on the classifier identifier
(lines 43-53), so an unknown identifier raises after the first slice is
built. -/
def kfoldEventTrace (solver : String) : Nat → List (List Nat × List Nat) → List CvEvent
  | _, [] => []
  | i, _ :: rest =>
    CvEvent.sliceBuilt i ::
      (if solverKnown solver then CvEvent.modelFit i :: kfoldEventTrace solver (i + 1) rest
       else [CvEvent.errorRaised])

/-- Event trace of the fold loop of LOOCV_solver (ROC_AUC.py lines 171-194):
each iteration dispatches on the classifier identifier first (lines 173-183)
and slices only afterwards (lines 184-188), so an unknown identifier raises
before any slice is built. -/
def loocvEventTrace (solver : String) : Nat → List (List Nat × List Nat) → List CvEvent
  | _, [] => []
  | i, _ :: rest =>
    if solverKnown solver then
      CvEvent.sliceBuilt i :: CvEvent.modelFit i :: loocvEventTrace solver (i + 1) rest
    else [CvEvent.errorRaised]

/- Fold loops and ROC aggregation. -/

/-- Embeds the single-class test: np.unique(y[test_index]).size == 1, used at
refactored_cv_and_plotting.py line 144 and 03_fit_classifier_and_plot.py
line 161. -/
def singleClassFold (y : List Nat) (testIdx : List Nat) : Bool :=
  uniqueCount (testIdx.map fun i => y.getD i 0) == 1

/-- One interpolated per-fold TPR vector: np.interp(mean_fpr, fpr, tpr) with
the first entry then forced to 0.0 (ROC_AUC.py lines 69-70,
refactored_cv_and_plotting.py lines 135-137, 03_fit_classifier_and_plot.py
lines 307-308). -/
def foldInterpTpr (c : Curve) : List ℚ := setFirst0 (npInterp linspace100 c)

/-- Embeds the fold loop of refactored_cv_and_plotting.py lines 103-153: for
every fold the interpolated TPR and the fold AUC are appended to the
accumulators (lines 139-140), and afterwards the single-class check of lines
143-145 merely logs a warning; the fold stays in the aggregates. The fitted
classifier and RocCurveDisplay are scikit-learn calls, abstracted as the
curveOf parameter giving the ROC curve of each fold. Result: the tprs list,
the aucs list, and the warned fold numbers. -/
def refactoredFoldLoop (y : List Nat) (curveOf : List Nat × List Nat → Curve) :
    Nat → List (List Nat × List Nat) → List (List ℚ) × List ℚ × List Nat
  | _, [] => ([], [], [])
  | split, f :: rest =>
    let c := curveOf f
    let acc := refactoredFoldLoop y curveOf (split + 1) rest
    (foldInterpTpr c :: acc.1, trapezoid c :: acc.2.1,
     if singleClassFold y f.2 then split :: acc.2.2 else acc.2.2)

/-- Embeds the fold loop of fit_and_plot in 03_fit_classifier_and_plot.py
lines 291-317 together with the skip_split flag of perform_data_split lines
160-162: a single-class test fold is warned about and skipped with continue
before anything is appended; any other fold contributes its interpolated TPR
and its AUC. Classifier and roc_curve abstracted as curveOf. Result: the tprs
list, the aucs list, and the warned fold numbers. -/
def fitLoop03 (y : List Nat) (curveOf : List Nat × List Nat → Curve) :
    Nat → List (List Nat × List Nat) → List (List ℚ) × List ℚ × List Nat
  | _, [] => ([], [], [])
  | split, f :: rest =>
    let acc := fitLoop03 y curveOf (split + 1) rest
    if singleClassFold y f.2 then (acc.1, acc.2.1, split :: acc.2.2)
    else
      let c := curveOf f
      (foldInterpTpr c :: acc.1, trapezoid c :: acc.2.1, acc.2.2)

/-- Per-fold AUC list: each entry is the trapezoidal AUC of the raw ROC curve
of that fold, as stored by aucs.append(viz.roc_auc)
(refactored_cv_and_plotting.py line 140). -/
def foldAucs (cs : List Curve) : List ℚ := cs.map trapezoid

/-- Per-fold interpolated TPR list (refactored_cv_and_plotting.py line
139). -/
def foldTprs (cs : List Curve) : List (List ℚ) := cs.map foldInterpTpr

/-- Embeds mean_tpr of refactored_cv_and_plotting.py lines 159-160 (and
ROC_results lines 103-104, roc_per_clf lines 182-183): the pointwise mean of
the interpolated TPR curves with the last entry forced to 1.0. -/
def meanTprOf (cs : List Curve) : List ℚ := setLast1 (pointwiseMean (foldTprs cs))

/-- Embeds mean_auc = auc(mean_fpr, mean_tpr) of
refactored_cv_and_plotting.py line 161: the trapezoidal AUC of the mean
interpolated curve. -/
def aucOfMeanCurve (cs : List Curve) : ℚ := trapezoid (linspace100.zip (meanTprOf cs))

/-- Embeds round(q, 3) used at refactored_cv_and_plotting.py line 175 (Python
rounds ties to even; this model rounds ties up, agreeing with Python except at
exact half-thousandth ties, which none of the statements below touch). -/
def round3 (q : ℚ) : ℚ := (⌊q * 1000 + 1 / 2⌋ : ℚ) / 1000

/-- Embeds AUC_mean = round(mean(aucs), 3) of refactored_cv_and_plotting.py
line 175: the arithmetic mean of the per-fold AUC values. -/
def meanOfFoldAucs (cs : List Curve) : ℚ := round3 (listMean (foldAucs cs))

/-- The two mean-AUC figures of one report of
refactored_cv_and_plotting.py: the value in the plot legend of lines 163-170
and the value printed to the console at line 177. -/
structure RocReport where
  plotLabelMeanAuc : ℚ
  consoleAucMean : ℚ
deriving DecidableEq

/-- Embeds the report of one refactored_cv_and_plotting.py run (lines
158-177): the plot legend carries auc(mean_fpr, mean_tpr) while the console
line carries round(mean(aucs), 3). -/
def refactoredReport (cs : List Curve) : RocReport :=
  ⟨aucOfMeanCurve cs, meanOfFoldAucs cs⟩

/- Data slicing and scaling of perform_data_split. -/

/-- Embeds X.iloc[idx] row selection on a row-major matrix. -/
def ilocRows (X : List (List ℚ)) (idx : List Nat) : List (List ℚ) :=
  idx.map fun i => X.getD i []

/-- Embeds y.iloc[idx] selection on a label vector. -/
def ilocVals (y : List Nat) (idx : List Nat) : List Nat :=
  idx.map fun i => y.getD i 0

/-- A scaler in the sense of 4.2 of the spec: fit parameters from one matrix,
then transform matrices with those parameters. The concrete sklearn scalers
(StandardScaler, MinMaxScaler, RobustScaler) are not part of the repository,
so the scaler is kept abstract here and instantiated below. -/
structure ScalerModel (P : Type) where
  fitParams : List (List ℚ) → P
  transform : P → List (List ℚ) → List (List ℚ)

/-- Values of column j of a matrix. -/
def colVals (m : List (List ℚ)) (j : Nat) : List ℚ := m.map fun r => r.getD j 0

/-- Minimum of column j (0 on an empty matrix). -/
def colMin (m : List (List ℚ)) (j : Nat) : ℚ :=
  match colVals m j with
  | [] => 0
  | x :: xs => xs.foldl min x

/-- Maximum of column j (0 on an empty matrix). -/
def colMax (m : List (List ℚ)) (j : Nat) : ℚ :=
  match colVals m j with
  | [] => 0
  | x :: xs => xs.foldl max x

/-- Modelled from the spec: sklearn MinMaxScaler, one of the three scaling
methods named in 4.2 of the spec and scaling_methods of
03_fit_classifier_and_plot.py line 367; its implementation is not part of the
repository. Fit records per-column (min, max); transform maps x to
(x - min) / (max - min). -/
def minMaxScaler : ScalerModel (List (ℚ × ℚ)) :=
  ⟨fun m => (List.range (m.headD []).length).map fun j => (colMin m j, colMax m j),
   fun ps m => m.map fun r => r.enum.map fun p =>
     (p.2 - (ps.getD p.1 (0, 1)).1) / ((ps.getD p.1 (0, 1)).2 - (ps.getD p.1 (0, 1)).1)⟩

/-- The scaler parameters fitted inside perform_data_split: fit_transform is
called on X_train alone (03_fit_classifier_and_plot.py line 157). -/
def fittedScalerParams (P : Type) (sc : ScalerModel P) (X : List (List ℚ))
    (trainIdx : List Nat) : P :=
  sc.fitParams (ilocRows X trainIdx)

/-- Embeds perform_data_split of 03_fit_classifier_and_plot.py lines 148-177:
slice X and y by the fold indices; when scaling is on and the data is not
normalized, fit the scaler on X_train and apply it to X_train and X_test
(lines 155-158); flag the fold for skipping when its test labels hold a
single class (lines 160-162). Returns (X_train, X_test, y_train, y_test,
skip_split). -/
def perform_data_split (P : Type) (sc : ScalerModel P) (scaling normalization : Bool)
    (X : List (List ℚ)) (y : List Nat) (trainIdx testIdx : List Nat) :
    List (List ℚ) × List (List ℚ) × List Nat × List Nat × Bool :=
  let X_train := ilocRows X trainIdx
  let X_test := ilocRows X testIdx
  let y_train := ilocVals y trainIdx
  let y_test := ilocVals y testIdx
  let scaled :=
    if scaling && !normalization then
      let ps := sc.fitParams X_train
      (sc.transform ps X_train, sc.transform ps X_test)
    else (X_train, X_test)
  (scaled.1, scaled.2, y_train, y_test, singleClassFold y testIdx)

/- Kfold_CV_solver of ROC_AUC.py as a data-flow function. -/

/-- Embeds the body of one Kfold_CV_solver iteration (ROC_AUC.py lines
40-72): slice X and y by the fold, fit and predict (clf.fit, clf.predict and
RocCurveDisplay.from_estimator are scikit-learn calls, abstracted as the
clfPred and vizCurve parameters), interpolate the fold curve onto the grid
with the first entry forced to 0, and take the fold AUC. Returns
(pred, interp_tpr, roc_auc). -/
def kfoldBody (clfPred : List (List ℚ) → List Nat → List (List ℚ) → List Int)
    (vizCurve : List (List ℚ) → List Nat → List (List ℚ) → List Nat → Curve)
    (X : List (List ℚ)) (y : List Nat) (f : List Nat × List Nat) :
    List Int × List ℚ × ℚ :=
  let X_train := ilocRows X f.1
  let X_test := ilocRows X f.2
  let y_train := ilocVals y f.1
  let y_test := ilocVals y f.2
  let c := vizCurve X_train y_train X_test y_test
  (clfPred X_train y_train X_test, foldInterpTpr c, trapezoid c)

/-- Loop of Kfold_CV_solver (ROC_AUC.py lines 38-74): tprs and aucs grow by
appending once per fold, while test_index and pred are plain loop variables
overwritten every iteration; the return statement of line 74 reads their
final values, a NameError when the split is empty, and an unknown solver
raises inside the loop. -/
def kfoldGo (solver : String)
    (clfPred : List (List ℚ) → List Nat → List (List ℚ) → List Int)
    (vizCurve : List (List ℚ) → List Nat → List (List ℚ) → List Nat → Curve)
    (X : List (List ℚ)) (y : List Nat)
    (last : Option (List Nat × List Int)) (tprs : List (List ℚ)) (aucs : List ℚ) :
    List (List Nat × List Nat) →
      Except String ((List Nat × List Int) × List (List ℚ) × List ℚ × List ℚ)
  | [] =>
    match last with
    | none => .error "NameError"
    | some tp => .ok (tp, tprs, aucs, linspace100)
  | f :: rest =>
    if solverKnown solver then
      let r := kfoldBody clfPred vizCurve X y f
      kfoldGo solver clfPred vizCurve X y (some (f.2, r.1))
        (tprs ++ [r.2.1]) (aucs ++ [r.2.2]) rest
    else .error "muumi"

/-- Embeds Kfold_CV_solver of ROC_AUC.py lines 29-74 as the function from the
fold sequence to the returned tuple (test_index, pred, tprs, aucs,
mean_fpr). -/
def Kfold_CV_solver (solver : String)
    (clfPred : List (List ℚ) → List Nat → List (List ℚ) → List Int)
    (vizCurve : List (List ℚ) → List Nat → List (List ℚ) → List Nat → Curve)
    (X : List (List ℚ)) (y : List Nat) (split : List (List Nat × List Nat)) :
    Except String ((List Nat × List Int) × List (List ℚ) × List ℚ × List ℚ) :=
  kfoldGo solver clfPred vizCurve X y none [] [] split

/-- Demonstration split with two folds over four rows. -/
def demoSplit : List (List Nat × List Nat) := [([0, 1], [2, 3]), ([2, 3], [0, 1])]

/-- Demonstration labels: rows 2 and 3 are both controls, so the test fold
[2, 3] of demoSplit holds a single class. -/
def demoY : List Nat := [0, 1, 0, 0]

/-- Demonstration per-fold curve assignment: a straight diagonal for every
fold. -/
def demoCurveOf : List Nat × List Nat → Curve := fun _ => [(0, 0), (1, 1)]

/-- Demonstration fold ROC curve with a kink at one half, off the grid of
linspace100. -/
def demoCurve : Curve := [(0, 0), (1/2, 1), (1, 1)]

/-- Demonstration fold set of two identical curves. -/
def c2demoFolds : List Curve := [demoCurve, demoCurve]

/-- Demonstration feature matrix with four rows. -/
def demoX : List (List ℚ) := [[1, 2], [3, 4], [5, 6], [7, 8]]

/-- A second demonstration matrix agreeing with demoX on rows 0 and 1 and
different on test row 3. -/
def demoX2 : List (List ℚ) := [[1, 2], [3, 4], [5, 6], [9, 9]]

/-- Demonstration abstract classifier: predicts label 1 for every test
row. -/
def demoClfPred : List (List ℚ) → List Nat → List (List ℚ) → List Int :=
  fun _ _ xt => xt.map fun _ => 1

/-- Demonstration abstract ROC display: the diagonal curve for every fold. -/
def demoVizCurve : List (List ℚ) → List Nat → List (List ℚ) → List Nat → Curve :=
  fun _ _ _ _ => [(0, 0), (1, 1)]

/-- Demonstration index list for the loader: one subject whose identifier has
neither P nor C at position 2, under the ec_1 task. -/
def demoBadIndices : List (List Char) := [['1', '1', 'X', '_', 'e', 'c', '_', '1']]

/-- Demonstration band-power matrix: two frequency bands by two channels. -/
def demoBands : List (List ℚ) := [[1, 3], [3, 1]]

/-- Demonstration dataframe rows: two subjects with three segments each. -/
def demoRows6 : List ℚ := [10, 11, 12, 20, 21, 22]

-- THEOREMS

/-- Helper: List.getD commutes with List.map when the default is mapped. -/
theorem getD_map_eq {α β : Type} (f : α → β) (l : List α) (i : Nat) (d : α) :
    (l.map f).getD i (f d) = f (l.getD i d) := by
  have h1 : (l.map f).getD i (f d) = ((l.map f).get? i).getD (f d) := rfl
  have h2 : l.getD i d = (l.get? i).getD d := rfl
  rw [h1, h2, List.get?_map]
  cases l.get? i <;> simp

/-- Helper: List.getD through a mapped enum, entry j of a row rescaled per
column. -/
theorem getD_enum_map_div (r : List ℚ) (c : Nat → ℚ) (j : Nat) :
    ((r.enum.map fun p => p.2 / c p.1).getD j 0) = r.getD j 0 / c j := by
  have h1 : (r.enum.map fun p => p.2 / c p.1).get? j =
      (r.get? j).map fun a => a / c j := by
    rw [List.get?_map, List.enum_get?]
    cases r.get? j <;> simp
  have h2 : (r.enum.map fun p => p.2 / c p.1).getD j 0 =
      ((r.enum.map fun p => p.2 / c p.1).get? j).getD 0 := rfl
  have h3 : r.getD j 0 = (r.get? j).getD 0 := rfl
  rw [h2, h3, h1]
  cases r.get? j <;> simp

/-- Helper: the sum of a list divided elementwise equals the divided sum. -/
theorem sum_map_div (l : List ℚ) (c : ℚ) : (l.map fun x => x / c).sum = l.sum / c := by
  induction l with
  | nil => simp
  | cons x t ih => simp [ih, add_div]

/-- Helper: List.getD after List.drop shifts the position. -/
theorem getD_drop {α : Type} (l : List α) (m i : Nat) (d : α) :
    (l.drop m).getD i d = l.getD (m + i) d := by
  have h1 : (l.drop m).getD i d = ((l.drop m).get? i).getD d := rfl
  have h2 : l.getD (m + i) d = (l.get? (m + i)).getD d := rfl
  rw [h1, h2, List.get?_drop]

/-- Helper: a positive countdown only skips elements. -/
theorem everyNthAux_skip {α : Type} (step : Nat) :
    ∀ (xs : List α) (c : Nat), everyNthAux step c xs = everyNthAux step 0 (xs.drop c) := by
  intro xs
  induction xs with
  | nil => intro c; cases c <;> simp [everyNthAux]
  | cons x rest ih =>
    intro c
    cases c with
    | zero => simp
    | succ c2 => simpa [everyNthAux] using ih c2

/-- Helper: element k of the stepped selection is the source element at
position c + k * step, defaults agreeing outside the range. -/
theorem everyNthAux_getD {α : Type} (step : Nat) (hstep : 1 ≤ step) (d : α) :
    ∀ (xs : List α) (c k : Nat), (everyNthAux step c xs).getD k d = xs.getD (c + k * step) d := by
  intro xs
  induction xs with
  | nil => intro c k; cases c <;> simp [everyNthAux]
  | cons x rest ih =>
    intro c k
    cases c with
    | zero =>
      cases k with
      | zero => simp [everyNthAux]
      | succ k2 =>
        have h1 : (everyNthAux step 0 (x :: rest)).getD (k2 + 1) d =
            (everyNthAux step (step - 1) rest).getD k2 d := by
          simp [everyNthAux]
        rw [h1, ih (step - 1) k2]
        have h2 : 0 + (k2 + 1) * step = (step - 1 + k2 * step) + 1 := by
          rw [Nat.add_mul]
          omega
        rw [h2, List.getD_cons_succ]
    | succ c2 =>
      have h1 : (everyNthAux step (c2 + 1) (x :: rest)).getD k d =
          (everyNthAux step c2 rest).getD k d := by simp [everyNthAux]
      rw [h1, ih c2 k]
      have h2 : c2 + 1 + k * step = (c2 + k * step) + 1 := by omega
      rw [h2, List.getD_cons_succ]

/-- Helper: the stepped slice of a nonempty remainder peels off one selected
element and continues one whole stride later. -/
theorem pySliceStep_cons {α : Type} (d : α) (seg ws : Nat) (hseg : 1 ≤ seg) (rows : List α)
    (hws : ws < rows.length) :
    pySliceStep ws seg rows = rows.getD ws d :: pySliceStep ws seg (rows.drop seg) := by
  unfold pySliceStep
  obtain ⟨x, t, hxt⟩ : ∃ x t, rows.drop ws = x :: t := by
    cases hd : rows.drop ws with
    | nil =>
      exfalso
      have := List.length_drop ws rows
      rw [hd] at this
      simp at this
      omega
    | cons x t => exact ⟨x, t, rfl⟩
  rw [hxt]
  show x :: everyNthAux seg (seg - 1) t = rows.getD ws d :: everyNthAux seg 0 ((rows.drop seg).drop ws)
  have hx : x = rows.getD ws d := by
    have hq : (rows.drop ws).get? 0 = rows.get? (ws + 0) := List.get?_drop rows ws 0
    rw [hxt] at hq
    have : rows.get? ws = some x := by simpa using hq.symm
    have h3 : rows.getD ws d = (rows.get? ws).getD d := rfl
    rw [h3, this]
    rfl
  have ht : t = rows.drop (ws + 1) := by
    have := congrArg (List.drop 1) hxt
    rw [List.drop_drop] at this
    simpa using this.symm
  rw [hx, everyNthAux_skip seg t (seg - 1), ht, List.drop_drop, List.drop_drop]
  have h5 : ws + 1 + (seg - 1) = seg + ws := by omega
  rw [h5]

/-- Helper: when the rows consist of S whole subjects of seg segments each and
the offset is inside the first subject, the slice picks exactly one row per
subject, the one at offset ws of each stride. -/
theorem slice_eq_map {α : Type} (d : α) (seg : Nat) (hseg : 1 ≤ seg) :
    ∀ (S : Nat) (rows : List α) (ws : Nat), ws < seg → rows.length = S * seg →
      pySliceStep ws seg rows = (List.range S).map fun s => rows.getD (s * seg + ws) d := by
  intro S
  induction S with
  | zero =>
    intro rows ws hws hlen
    have hnil : rows = [] := List.length_eq_zero.mp (by omega)
    subst hnil
    cases ws <;> simp [pySliceStep, everyNthAux]
  | succ S2 ih =>
    intro rows ws hws hlen
    have hmul : (S2 + 1) * seg = S2 * seg + seg := by ring
    have hwslen : ws < rows.length := by omega
    rw [pySliceStep_cons d seg ws hseg rows hwslen]
    have hdroplen : (rows.drop seg).length = S2 * seg := by
      rw [List.length_drop]
      omega
    rw [ih (rows.drop seg) ws hws hdroplen]
    rw [List.range_succ_eq_map, List.map_cons, List.map_map]
    congr 1
    · simp
    · apply List.map_congr_left
      intro s _
      simp only [Function.comp_apply]
      rw [getD_drop]
      congr 1
      have e1 : seg * Nat.succ s = seg * s + seg := Nat.mul_succ seg s
      have e2 : Nat.succ s * seg = s * seg + seg := Nat.succ_mul s seg
      have e3 : seg * s = s * seg := Nat.mul_comm seg s
      omega

/-- Helper: the accepted-or-rejected startup check on which_segment. -/
theorem which_segment_accepted_iff (ws seg : Nat) :
    which_segment_accepted true ws seg = false ↔ seg < ws := by
  simp [which_segment_accepted]

/-- Helper: characterization of the group label of one row index. -/
theorem groupOfIndex_cases (s : List Char) :
    (groupOfIndex s = 1 ↔ s.getD 2 ' ' = 'P') ∧
    (groupOfIndex s = 0 ↔ s.getD 2 ' ' = 'C') ∧
    (groupOfIndex s = 2 ↔ (s.getD 2 ' ' ≠ 'P' ∧ s.getD 2 ' ' ≠ 'C')) := by
  have pc : ('P' : Char) ≠ 'C' := by decide
  have cp : ('C' : Char) ≠ 'P' := by decide
  unfold groupOfIndex
  generalize s.getD 2 ' ' = ch
  by_cases hP : ch = 'P'
  · simp [hP, pc]
  · by_cases hC : ch = 'C'
    · simp [hP, hC, cp]
    · simp [hP, hC]

/-- Claim C8: when per-channel normalization is enabled, for every band-power
matrix and every channel column whose original sum is nonzero, the normalized
band powers of that channel sum to 1. -/
theorem C8_channel_normalization (m : List (List ℚ)) (j : Nat)
    (h : colSum m j ≠ 0) : colSum (channelScaling m) j = 1 := by
  have key : ∀ (rows : List (List ℚ)) (c : Nat → ℚ),
      ((rows.map fun r => r.enum.map fun p => p.2 / c p.1).map fun r => r.getD j 0).sum =
        (rows.map fun r => r.getD j 0 / c j).sum := by
    intro rows c
    induction rows with
    | nil => rfl
    | cons r t ih => simp only [List.map_cons, List.sum_cons, ih, getD_enum_map_div r c j]
  have hdiv : ∀ (rows : List (List ℚ)) (q : ℚ),
      (rows.map fun r => r.getD j 0 / q).sum = (rows.map fun r => r.getD j 0).sum / q := by
    intro rows q
    induction rows with
    | nil => simp
    | cons r t ih => simp only [List.map_cons, List.sum_cons, ih, add_div]
  have h0 : colSum (channelScaling m) j =
      ((m.map fun r => r.enum.map fun p => p.2 / colSum m p.1).map fun r => r.getD j 0).sum :=
    rfl
  rw [h0, key m (fun i => colSum m i), hdiv m (colSum m j)]
  exact div_self h

/-- Witness for C8 at the demonstration matrix: channel column 0 has nonzero
total power 4 and its normalized powers sum to 1. -/
theorem C8_channel_normalization_witness :
    colSum demoBands 0 ≠ 0 ∧ colSum (channelScaling demoBands) 0 = 1 :=
  ⟨by norm_num [demoBands, colSum], C8_channel_normalization demoBands 0
    (by norm_num [demoBands, colSum])⟩

/-- Claim C7, counterexample: the loader labels the demonstration subject
(identifier with character X at position 2) with the sentinel value 2, so the
label vector is not binary as stated. -/
theorem C7_counterexample :
    groupsOf demoBadIndices = [2] ∧ ¬ (∀ g ∈ groupsOf demoBadIndices, g = 0 ∨ g = 1) := by
  constructor
  · rfl
  · intro h
    have := h 2 (by rw [show groupsOf demoBadIndices = [2] from rfl]; simp)
    omega

/-- Claim C7, amended: the label vector is parallel-indexed to the assembled
rows (same length, same order, also matching any feature matrix built from the
same subject-task pairs), and each entry is 1 exactly when the row index has P
at position 2, 0 exactly when it has C there, and the sentinel 2 exactly when
it has neither. -/
theorem C7_labels (subjects tasks : List (List Char)) :
    (groupsOf ((subjects_and_tasks subjects tasks).map mkIndex)).length =
      ((subjects_and_tasks subjects tasks).map mkIndex).length ∧
    (∀ featureOf : List Char × List Char → List ℚ,
      ((subjects_and_tasks subjects tasks).map featureOf).length =
        (groupsOf ((subjects_and_tasks subjects tasks).map mkIndex)).length) ∧
    (∀ i : Nat,
      ((groupsOf ((subjects_and_tasks subjects tasks).map mkIndex)).getD i 2 = 1 ↔
        (((subjects_and_tasks subjects tasks).map mkIndex).getD i []).getD 2 ' ' = 'P') ∧
      ((groupsOf ((subjects_and_tasks subjects tasks).map mkIndex)).getD i 2 = 0 ↔
        (((subjects_and_tasks subjects tasks).map mkIndex).getD i []).getD 2 ' ' = 'C') ∧
      ((groupsOf ((subjects_and_tasks subjects tasks).map mkIndex)).getD i 2 = 2 ↔
        ((((subjects_and_tasks subjects tasks).map mkIndex).getD i []).getD 2 ' ' ≠ 'P' ∧
         (((subjects_and_tasks subjects tasks).map mkIndex).getD i []).getD 2 ' ' ≠ 'C'))) := by
  set idx := (subjects_and_tasks subjects tasks).map mkIndex with hidx
  refine ⟨by simp [groupsOf], fun featureOf => by simp [groupsOf, hidx], fun i => ?_⟩
  have hg : (groupsOf idx).getD i 2 = groupOfIndex (idx.getD i []) :=
    getD_map_eq groupOfIndex idx i []
  rw [hg]
  exact groupOfIndex_cases (idx.getD i [])

/-- Claim C10: with one_segment_per_task enabled, initialize_cv selects
exactly the rows at 0-based positions which_segment, which_segment + segments,
which_segment + 2 * segments, and so on; the default which_segment = 1 selects
the second segment of every subject; and which_segment = segments passes the
startup validation (which rejects exactly which_segment > segments) yet
selects the slice of positions segments, 2 * segments, and so on, which
contains no row of the first subject. -/
theorem C10_which_segment_slice (α : Type) (d : α) (seg S : Nat) (rows : List α)
    (hseg : 2 ≤ seg) (hlen : rows.length = S * seg) :
    (∀ ws k : Nat, (initialize_cv_slice ws seg rows).getD k d = rows.getD (ws + k * seg) d) ∧
    (initialize_cv_slice 1 seg rows = (List.range S).map fun s => rows.getD (s * seg + 1) d) ∧
    which_segment_accepted true seg seg = true ∧
    (∀ ws, which_segment_accepted true ws seg = false ↔ seg < ws) ∧
    (initialize_cv_slice seg seg rows =
      (List.range (S - 1)).map fun s => rows.getD ((s + 1) * seg) d) := by
  have hseg1 : 1 ≤ seg := by omega
  refine ⟨?_, ?_, ?_, fun ws => which_segment_accepted_iff ws seg, ?_⟩
  · intro ws k
    unfold initialize_cv_slice pySliceStep
    rw [everyNthAux_getD seg hseg1 d (rows.drop ws) 0 k, getD_drop]
    simp
  · have := slice_eq_map d seg hseg1 S rows 1 (by omega) hlen
    simpa [initialize_cv_slice] using this
  · simp [which_segment_accepted]
  · have hdrop : (rows.drop seg).length = (S - 1) * seg := by
      rw [List.length_drop, hlen]
      cases S with
      | zero => simp
      | succ S2 =>
        simp only [Nat.succ_eq_add_one, Nat.add_sub_cancel]
        have e1 : (S2 + 1) * seg = S2 * seg + seg := by
          rw [Nat.add_mul]
          omega
        omega
    have hzero := slice_eq_map d seg hseg1 (S - 1) (rows.drop seg) 0 (by omega) hdrop
    have hshift : initialize_cv_slice seg seg rows = pySliceStep 0 seg (rows.drop seg) := by
      unfold initialize_cv_slice pySliceStep
      simp
    rw [hshift, hzero]
    apply List.map_congr_left
    intro s _
    rw [getD_drop]
    congr 1
    have e2 : (s + 1) * seg = s * seg + seg := Nat.succ_mul s seg
    omega

/-- Witness for C10 at two subjects of three segments: the hypotheses hold for
the demonstration rows and the characterization follows by applying the
theorem. -/
theorem C10_which_segment_slice_witness :
    2 ≤ 3 ∧ demoRows6.length = 2 * 3 ∧
    ((∀ ws k : Nat,
        (initialize_cv_slice ws 3 demoRows6).getD k 0 = demoRows6.getD (ws + k * 3) 0) ∧
     (initialize_cv_slice 1 3 demoRows6 =
        (List.range 2).map fun s => demoRows6.getD (s * 3 + 1) 0) ∧
     which_segment_accepted true 3 3 = true ∧
     (∀ ws, which_segment_accepted true ws 3 = false ↔ 3 < ws) ∧
     (initialize_cv_slice 3 3 demoRows6 =
        (List.range (2 - 1)).map fun s => demoRows6.getD ((s + 1) * 3) 0)) :=
  ⟨by omega, by rfl, C10_which_segment_slice ℚ 0 3 2 demoRows6 (by omega) (by rfl)⟩

/-- Claim C3, counterexample: the splitter of refactored_cv_and_plotting.py is
constructed with shuffle=True and no random_state, so its output depends on
the ambient random-number-generator state of the process; two runs on the same
ten rows with different ambient states produce different fold sequences, so
that call site is not deterministic across runs. -/
theorem C3_counterexample :
    runSplitter refactoredSplitterConfig 0 10 ≠ runSplitter refactoredSplitterConfig 1 10 := by
  decide

/-- Claim C3, amended: the splitters of ROC_AUC.py (random_state=20) and of
03_fit_classifier_and_plot.py (random_state=seed) fix their random seed, so
two runs with the same inputs produce the identical ordered sequence of
(train, test) index pairs whatever the ambient random-number-generator state;
the refactored script fixes no seed and has no such guarantee. -/
theorem C3_fixed_seed_deterministic :
    (∀ a1 a2 n : Nat,
      runSplitter rocAucSplitterConfig a1 n = runSplitter rocAucSplitterConfig a2 n) ∧
    (∀ seed folds a1 a2 n : Nat,
      runSplitter (script03SplitterConfig seed folds) a1 n =
        runSplitter (script03SplitterConfig seed folds) a2 n) :=
  ⟨fun _ _ _ => rfl, fun _ _ _ _ _ => rfl⟩

/-- Claim C4, counterexample: in Kfold_CV_solver an unrecognized classifier
identifier raises only inside the first fold iteration, after the train/test
slices of that fold have been built: the event trace on the unknown
identifier QDA begins with the slice of fold 0, not with the error. -/
theorem C4_counterexample :
    kfoldEventTrace "QDA" 0 demoSplit = [CvEvent.sliceBuilt 0, CvEvent.errorRaised] ∧
    (kfoldEventTrace "QDA" 0 demoSplit).head? ≠ some CvEvent.errorRaised := by
  exact ⟨by decide, by decide⟩

/-- Claim C4, amended: an unrecognized classifier identifier is a fatal error
raised in the first fold iteration before any model is fitted; in
Kfold_CV_solver the first fold train/test slices are built before the error,
while in LOOCV_solver the error precedes any slicing. -/
theorem C4_unknown_classifier (solver : String) (i : Nat)
    (folds : List (List Nat × List Nat))
    (hsolver : solverKnown solver = false) (hne : folds ≠ []) :
    kfoldEventTrace solver i folds = [CvEvent.sliceBuilt i, CvEvent.errorRaised] ∧
    loocvEventTrace solver i folds = [CvEvent.errorRaised] ∧
    (∀ j, CvEvent.modelFit j ∉ kfoldEventTrace solver i folds) ∧
    (∀ j, CvEvent.modelFit j ∉ loocvEventTrace solver i folds) := by
  obtain ⟨f, rest, rfl⟩ := List.exists_cons_of_ne_nil hne
  have hk : kfoldEventTrace solver i (f :: rest) =
      [CvEvent.sliceBuilt i, CvEvent.errorRaised] := by
    simp [kfoldEventTrace, hsolver]
  have hl : loocvEventTrace solver i (f :: rest) = [CvEvent.errorRaised] := by
    simp [loocvEventTrace, hsolver]
  refine ⟨hk, hl, ?_, ?_⟩
  · intro j
    rw [hk]
    simp
  · intro j
    rw [hl]
    simp

/-- Witness for C4 at the identifier QDA on the demonstration split. -/
theorem C4_unknown_classifier_witness :
    solverKnown "QDA" = false ∧ demoSplit ≠ [] ∧
    (kfoldEventTrace "QDA" 0 demoSplit = [CvEvent.sliceBuilt 0, CvEvent.errorRaised] ∧
     loocvEventTrace "QDA" 0 demoSplit = [CvEvent.errorRaised] ∧
     (∀ j, CvEvent.modelFit j ∉ kfoldEventTrace "QDA" 0 demoSplit) ∧
     (∀ j, CvEvent.modelFit j ∉ loocvEventTrace "QDA" 0 demoSplit)) :=
  ⟨by decide, by decide, C4_unknown_classifier "QDA" 0 demoSplit (by decide) (by decide)⟩

/-- Claim C1, counterexample: in the refactored_cv_and_plotting.py run on the
demonstration data, fold 0 has the single-class test set [2, 3], the warning
for it is emitted, yet its TPR curve and AUC are still appended: both
accumulators end with one entry per fold, not one fewer. -/
theorem C1_counterexample :
    singleClassFold demoY [2, 3] = true ∧
    (refactoredFoldLoop demoY demoCurveOf 0 demoSplit).2.2 = [0] ∧
    (refactoredFoldLoop demoY demoCurveOf 0 demoSplit).2.1.length = 2 ∧
    (refactoredFoldLoop demoY demoCurveOf 0 demoSplit).1.length = 2 ∧
    demoSplit.length = 2 := by
  refine ⟨by decide, by decide, by decide, by decide, by decide⟩

/-- Claim C1, amended: a single-class test fold is detected and triggers one
warning in both scripts; in 03_fit_classifier_and_plot.py the fold is then
skipped, so the TPR and AUC accumulators keep exactly the folds with at least
two test classes, while in refactored_cv_and_plotting.py the fold stays in
both accumulators, which keep one entry per fold. -/
theorem C1_single_class_fold (y : List Nat) (curveOf : List Nat × List Nat → Curve)
    (split : Nat) (folds : List (List Nat × List Nat)) :
    (fitLoop03 y curveOf split folds).1.length =
      (folds.filter fun f => !singleClassFold y f.2).length ∧
    (fitLoop03 y curveOf split folds).2.1.length =
      (folds.filter fun f => !singleClassFold y f.2).length ∧
    (fitLoop03 y curveOf split folds).2.2.length =
      (folds.filter fun f => singleClassFold y f.2).length ∧
    (refactoredFoldLoop y curveOf split folds).1.length = folds.length ∧
    (refactoredFoldLoop y curveOf split folds).2.1.length = folds.length ∧
    (refactoredFoldLoop y curveOf split folds).2.2.length =
      (folds.filter fun f => singleClassFold y f.2).length := by
  induction folds generalizing split with
  | nil => simp [fitLoop03, refactoredFoldLoop]
  | cons f rest ih =>
    obtain ⟨h1, h2, h3, h4, h5, h6⟩ := ih (split + 1)
    by_cases hf : singleClassFold y f.2 = true <;>
      simp [fitLoop03, refactoredFoldLoop, hf, h1, h2, h3, h4, h5, h6, List.filter_cons]

/-- Helper: the interpolation grid has 100 points. -/
theorem linspace100_length : linspace100.length = 100 := rfl

/-- Helper: the first entry written by setFirst0 is 0 whenever there is an
entry at all. -/
theorem setFirst0_head (l : List ℚ) (h : l ≠ []) : (setFirst0 l).head? = some 0 := by
  cases l with
  | nil => exact absurd rfl h
  | cons x t => rfl

/-- Helper: setFirst0 keeps the length. -/
theorem setFirst0_length (l : List ℚ) : (setFirst0 l).length = l.length := by
  cases l <;> rfl

/-- Helper: the last entry written by setLast1 is 1 whenever there is an entry
at all. -/
theorem setLast1_getLast (l : List ℚ) (h : l ≠ []) : (setLast1 l).getLast? = some 1 := by
  induction l with
  | nil => exact absurd rfl h
  | cons x t ih =>
    cases t with
    | nil => rfl
    | cons y t2 =>
      have ih2 := ih (by simp)
      obtain ⟨z, zs, hz⟩ : ∃ z zs, setLast1 (y :: t2) = z :: zs := by
        cases t2 <;> exact ⟨_, _, rfl⟩
      show (x :: setLast1 (y :: t2)).getLast? = some 1
      rw [hz] at ih2 ⊢
      rw [List.getLast?_cons_cons]
      exact ih2

/-- Claim C5: the interpolated TPR of every fold has 0 at the first grid point
(FPR = 0) whatever the curve, and the aggregate mean TPR of any nonempty fold
set has 1 at the last grid point (FPR = 1) whatever the averaged values. -/
theorem C5_pinned_endpoints (c : Curve) (cs : List Curve) (hcs : cs ≠ []) :
    (foldInterpTpr c).head? = some 0 ∧ (meanTprOf cs).getLast? = some 1 := by
  constructor
  · apply setFirst0_head
    have hlen : (npInterp linspace100 c).length = 100 := by
      unfold npInterp
      rw [List.length_map, linspace100_length]
    intro hnil
    rw [hnil] at hlen
    simp at hlen
  · obtain ⟨c0, rest, rfl⟩ := List.exists_cons_of_ne_nil hcs
    apply setLast1_getLast
    have hlen : (pointwiseMean (foldTprs (c0 :: rest))).length = 100 := by
      show ((List.range (foldInterpTpr c0).length).map _).length = 100
      rw [List.length_map, List.length_range]
      unfold foldInterpTpr
      rw [setFirst0_length]
      unfold npInterp
      rw [List.length_map, linspace100_length]
    intro hnil
    rw [hnil] at hlen
    simp at hlen

/-- Witness for C5 at the demonstration curve. -/
theorem C5_pinned_endpoints_witness :
    ([demoCurve] : List Curve) ≠ [] ∧
    ((foldInterpTpr demoCurve).head? = some 0 ∧ (meanTprOf [demoCurve]).getLast? = some 1) :=
  ⟨by simp, C5_pinned_endpoints demoCurve [demoCurve] (by simp)⟩

/-- Claim C6: with scaling enabled (and the data not normalized, as the
startup check enforces), the scaler parameters of a fold are a function of
the X_train slice alone and are applied to both partitions; replacing the
matrix by any matrix agreeing on the training rows, in particular changing
test rows arbitrarily, changes neither the fitted parameters nor the
transformed X_train. -/
theorem C6_no_test_leakage (P : Type) (sc : ScalerModel P)
    (X X2 : List (List ℚ)) (y : List Nat) (trainIdx testIdx : List Nat)
    (hagree : ∀ i ∈ trainIdx, X.getD i [] = X2.getD i []) :
    fittedScalerParams P sc X trainIdx = fittedScalerParams P sc X2 trainIdx ∧
    (perform_data_split P sc true false X y trainIdx testIdx).1 =
      (perform_data_split P sc true false X2 y trainIdx testIdx).1 ∧
    (perform_data_split P sc true false X y trainIdx testIdx).1 =
      sc.transform (fittedScalerParams P sc X trainIdx) (ilocRows X trainIdx) ∧
    (perform_data_split P sc true false X y trainIdx testIdx).2.1 =
      sc.transform (fittedScalerParams P sc X trainIdx) (ilocRows X testIdx) := by
  have hrows : ilocRows X trainIdx = ilocRows X2 trainIdx :=
    List.map_congr_left hagree
  refine ⟨?_, ?_, rfl, rfl⟩
  · unfold fittedScalerParams
    rw [hrows]
  · show sc.transform (sc.fitParams (ilocRows X trainIdx)) (ilocRows X trainIdx) =
      sc.transform (sc.fitParams (ilocRows X2 trainIdx)) (ilocRows X2 trainIdx)
    rw [hrows]

/-- Witness for C6: demoX and demoX2 agree on the training rows 0 and 1 and
differ on test row 3, with the min-max scaler instantiating the abstract
scaler. -/
theorem C6_no_test_leakage_witness :
    (∀ i ∈ [0, 1], demoX.getD i [] = demoX2.getD i []) ∧
    (fittedScalerParams (List (ℚ × ℚ)) minMaxScaler demoX [0, 1] =
       fittedScalerParams (List (ℚ × ℚ)) minMaxScaler demoX2 [0, 1] ∧
     (perform_data_split (List (ℚ × ℚ)) minMaxScaler true false demoX demoY [0, 1] [2, 3]).1 =
       (perform_data_split (List (ℚ × ℚ)) minMaxScaler true false demoX2 demoY [0, 1] [2, 3]).1 ∧
     (perform_data_split (List (ℚ × ℚ)) minMaxScaler true false demoX demoY [0, 1] [2, 3]).1 =
       minMaxScaler.transform (fittedScalerParams (List (ℚ × ℚ)) minMaxScaler demoX [0, 1])
         (ilocRows demoX [0, 1]) ∧
     (perform_data_split (List (ℚ × ℚ)) minMaxScaler true false demoX demoY [0, 1] [2, 3]).2.1 =
       minMaxScaler.transform (fittedScalerParams (List (ℚ × ℚ)) minMaxScaler demoX [0, 1])
         (ilocRows demoX [2, 3])) :=
  ⟨by simp [demoX, demoX2], C6_no_test_leakage (List (ℚ × ℚ)) minMaxScaler demoX demoX2
    demoY [0, 1] [2, 3] (by simp [demoX, demoX2])⟩

/-- Helper: full characterization of the Kfold_CV_solver loop for a recognized
classifier identifier on a nonempty remaining fold list. -/
theorem kfoldGo_char (solver : String)
    (clfPred : List (List ℚ) → List Nat → List (List ℚ) → List Int)
    (vizCurve : List (List ℚ) → List Nat → List (List ℚ) → List Nat → Curve)
    (X : List (List ℚ)) (y : List Nat) (hs : solverKnown solver = true) :
    ∀ (rest : List (List Nat × List Nat)) (lastF : List Nat × List Nat)
      (acc : Option (List Nat × List Int)) (tprs : List (List ℚ)) (aucs : List ℚ),
      rest.getLast? = some lastF →
      kfoldGo solver clfPred vizCurve X y acc tprs aucs rest =
        .ok ((lastF.2, (kfoldBody clfPred vizCurve X y lastF).1),
          tprs ++ rest.map (fun f => (kfoldBody clfPred vizCurve X y f).2.1),
          aucs ++ rest.map (fun f => (kfoldBody clfPred vizCurve X y f).2.2),
          linspace100) := by
  intro rest
  induction rest with
  | nil => intro lastF acc tprs aucs h; simp at h
  | cons f rest2 ih =>
    intro lastF acc tprs aucs h
    cases rest2 with
    | nil =>
      have hf : lastF = f := by simpa using h.symm
      subst hf
      simp [kfoldGo, hs]
    | cons g rest3 =>
      have h2 : (g :: rest3).getLast? = some lastF := by
        rw [← h, List.getLast?_cons_cons]
      have hstep : kfoldGo solver clfPred vizCurve X y acc tprs aucs (f :: g :: rest3) =
          kfoldGo solver clfPred vizCurve X y
            (some (f.2, (kfoldBody clfPred vizCurve X y f).1))
            (tprs ++ [(kfoldBody clfPred vizCurve X y f).2.1])
            (aucs ++ [(kfoldBody clfPred vizCurve X y f).2.2]) (g :: rest3) := by
        simp [kfoldGo, hs]
      rw [hstep, ih lastF _ _ _ h2]
      simp

/-- Claim C9: for a recognized classifier and any nonempty fold sequence,
Kfold_CV_solver returns the interpolated TPR and the AUC of every fold in
order, but the returned test_index and pred are exactly those of the final
fold iterated: the loop variables of the earlier folds are overwritten, so
those predictions appear nowhere in the result. -/
theorem C9_last_fold_returned (solver : String)
    (clfPred : List (List ℚ) → List Nat → List (List ℚ) → List Int)
    (vizCurve : List (List ℚ) → List Nat → List (List ℚ) → List Nat → Curve)
    (X : List (List ℚ)) (y : List Nat) (split : List (List Nat × List Nat))
    (lastF : List Nat × List Nat)
    (hs : solverKnown solver = true) (hlast : split.getLast? = some lastF) :
    Kfold_CV_solver solver clfPred vizCurve X y split =
      .ok ((lastF.2, (kfoldBody clfPred vizCurve X y lastF).1),
        split.map (fun f => (kfoldBody clfPred vizCurve X y f).2.1),
        split.map (fun f => (kfoldBody clfPred vizCurve X y f).2.2),
        linspace100) := by
  have h := kfoldGo_char solver clfPred vizCurve X y hs split lastF none [] [] hlast
  simpa [Kfold_CV_solver] using h

/-- Witness for C9 on the demonstration split of two folds. -/
theorem C9_last_fold_returned_witness :
    solverKnown "SVM" = true ∧ demoSplit.getLast? = some ([2, 3], [0, 1]) ∧
    Kfold_CV_solver "SVM" demoClfPred demoVizCurve demoX demoY demoSplit =
      .ok ((([2, 3], [0, 1]).2,
          (kfoldBody demoClfPred demoVizCurve demoX demoY ([2, 3], [0, 1])).1),
        demoSplit.map (fun f => (kfoldBody demoClfPred demoVizCurve demoX demoY f).2.1),
        demoSplit.map (fun f => (kfoldBody demoClfPred demoVizCurve demoX demoY f).2.2),
        linspace100) :=
  ⟨by decide, by decide, C9_last_fold_returned "SVM" demoClfPred demoVizCurve demoX demoY
    demoSplit ([2, 3], [0, 1]) (by decide) (by decide)⟩

set_option maxRecDepth 10000 in
set_option maxHeartbeats 2000000 in
/-- Claim C2: one refactored_cv_and_plotting.py report carries two mean-AUC
figures produced by two distinct computations: the console value is the
(rounded) arithmetic mean of the per-fold trapezoidal AUCs of the raw fold
curves, the plot-legend value is the trapezoidal AUC of the pinned mean
interpolated TPR curve, and on the demonstration folds the two values
differ, so they are genuinely distinct quantities. -/
theorem C2_mean_auc_two_ways :
    (∀ cs : List Curve,
      refactoredReport cs =
        ⟨trapezoid (linspace100.zip (setLast1 (pointwiseMean (cs.map foldInterpTpr)))),
         round3 ((cs.map trapezoid).sum / ((cs.map trapezoid).length : ℚ))⟩) ∧
    (refactoredReport c2demoFolds).consoleAucMean ≠
      (refactoredReport c2demoFolds).plotLabelMeanAuc := by
  constructor
  · intro cs
    rfl
  · show meanOfFoldAucs c2demoFolds ≠ aucOfMeanCurve c2demoFolds
    have hf : ⌊(3 : ℚ) / 4 * 1000 + 1 / 2⌋ = 750 := by
      rw [Int.floor_eq_iff]
      norm_num
    have hm : listMean (foldAucs c2demoFolds) = 3 / 4 := by
      norm_num [listMean, foldAucs, c2demoFolds, demoCurve, trapezoid]
    have h1 : meanOfFoldAucs c2demoFolds = 3 / 4 := by
      unfold meanOfFoldAucs round3
      rw [hm, hf]
      norm_num
    have h2 : aucOfMeanCurve c2demoFolds = 14701 / 19602 := by
      norm_num [aucOfMeanCurve, meanTprOf, foldTprs, foldInterpTpr, c2demoFolds, demoCurve,
        pointwiseMean, listMean, setLast1, setFirst0, npInterp, linspace100, List.range_succ,
        trapezoid, interpPoint]
    rw [h1, h2]
    norm_num

end MtbiMeeg
